import Mathlib

/-!
Verification development for the request-schema engine: the request
parser/validator (schema.go), the error taxonomy mapper, the security
scheme composition (MultiSecurity), and the OpenAPI document generator
with its naming of anonymous nested records.

Go source is shallowly embedded: reflect-driven struct walking becomes
recursion over an inductive model of Go types; Go maps become
association lists with overwrite-on-insert; machine integers are `Int`
with explicit wrap-around where `reflect.Value.SetInt`/`SetUint`
truncate; fallible code returns `Except`.
-/

namespace X

/-- Single-quote character, used verbatim in the Go error messages. -/
def sq : String := String.singleton (Char.ofNat 39)

/-- `strings.Contains` on the character level (ASCII inputs only in this code base). -/
def listContains (s pat : List Char) : Bool :=
  (List.range (s.length + 1)).any fun i => pat.isPrefixOf (s.drop i)

/-- `strings.Contains(s, pat)`. -/
def strContains (s pat : String) : Bool :=
  listContains s.data pat.data

/-- Index of the first occurrence of `pat` in `s` (`strings.Index`), `none` when absent. -/
def listIndexOf (s pat : List Char) : Option Nat :=
  (List.range (s.length + 1)).find? fun i => pat.isPrefixOf (s.drop i)

/-- `strings.Index(s, pat)` as an `Option`. -/
def strIndexOf (s pat : String) : Option Nat :=
  listIndexOf s.data pat.data

/-- `strings.ToLower` (ASCII). -/
def strLower (s : String) : String :=
  ⟨s.data.map Char.toLower⟩

/-- `strings.ToUpper(s[:1]) + s[1:]` as used for schema naming; total on `""`
(the Go code never reaches it with an empty name). -/
def capitalize (s : String) : String :=
  match s.data with
  | [] => ""
  | c :: rest => ⟨c.toUpper :: rest⟩

/-- Byte/character slice `s[n:]` (the code only slices ASCII data). -/
def strDrop (s : String) (n : Nat) : String :=
  ⟨s.data.drop n⟩

/-- Character count (`len` on the ASCII data this code handles). -/
def strLen (s : String) : Nat :=
  s.data.length

/-- `strings.HasPrefix`. -/
def strStarts (s pat : String) : Bool :=
  pat.data.isPrefixOf s.data

/-- Split a character list at a separator. -/
def splitCharsOn (sep : Char) : List Char → List (List Char)
  | [] => [[]]
  | c :: rest =>
      match splitCharsOn sep rest with
      | [] => [[]]
      | p :: ps => if c = sep then [] :: p :: ps else (c :: p) :: ps

/-- `strings.Split(s, sep)` for a one-character separator. -/
def strSplitOn (s : String) (sep : Char) : List String :=
  (splitCharsOn sep s.data).map fun cs => ⟨cs⟩

/-- `strings.Split(tag, ",")[0]`: the characters before the first comma. -/
def firstCommaPart (s : String) : String :=
  ⟨s.data.takeWhile fun c => c ≠ ','⟩

/-- `strings.TrimSpace` (ASCII whitespace). -/
def trimSpace (s : String) : String :=
  ⟨(((s.data.dropWhile Char.isWhitespace).reverse).dropWhile Char.isWhitespace).reverse⟩

/-! ### Models of `strconv` (Go standard library, external collaborator) -/

/-- Decimal digit run to `Nat`; `none` when empty or a non-digit occurs. -/
def digitsToNat : List Char → Option Nat
  | [] => none
  | cs => cs.foldl (fun acc c =>
      match acc with
      | none => none
      | some n => if c.isDigit then some (n * 10 + (c.toNat - 48)) else none)
      (some 0)

/-- `strconv.ParseInt(s, 10, 64)`: optional sign, decimal digits, signed 64-bit
range; the Go error text is reproduced for the taxonomy mapper. -/
def goParseInt64 (s : String) : Except String Int :=
  let syntaxErr : Except String Int :=
    .error ("strconv.ParseInt: parsing \"" ++ s ++ "\": invalid syntax")
  let rangeErr : Except String Int :=
    .error ("strconv.ParseInt: parsing \"" ++ s ++ "\": value out of range")
  match s.data with
  | '+' :: rest =>
      match digitsToNat rest with
      | none => syntaxErr
      | some n => if n ≤ 2 ^ 63 - 1 then .ok (n : Int) else rangeErr
  | '-' :: rest =>
      match digitsToNat rest with
      | none => syntaxErr
      | some n => if n ≤ 2 ^ 63 then .ok (-(n : Int)) else rangeErr
  | cs =>
      match digitsToNat cs with
      | none => syntaxErr
      | some n => if n ≤ 2 ^ 63 - 1 then .ok (n : Int) else rangeErr

/-- `strconv.ParseUint(s, 10, 64)`: no sign permitted, unsigned 64-bit range. -/
def goParseUint64 (s : String) : Except String Nat :=
  let syntaxErr : Except String Nat :=
    .error ("strconv.ParseUint: parsing \"" ++ s ++ "\": invalid syntax")
  let rangeErr : Except String Nat :=
    .error ("strconv.ParseUint: parsing \"" ++ s ++ "\": value out of range")
  match digitsToNat s.data with
  | none => syntaxErr
  | some n => if n ≤ 2 ^ 64 - 1 then .ok n else rangeErr

/-- `strconv.ParseBool`: the exact literal set Go accepts. -/
def goParseBool (s : String) : Except String Bool :=
  if s = "1" ∨ s = "t" ∨ s = "T" ∨ s = "TRUE" ∨ s = "true" ∨ s = "True" then .ok true
  else if s = "0" ∨ s = "f" ∨ s = "F" ∨ s = "FALSE" ∨ s = "false" ∨ s = "False" then .ok false
  else .error ("strconv.ParseBool: parsing \"" ++ s ++ "\": invalid syntax")

/-- Syntactic acceptance model of `strconv.ParseFloat(s, 64)` for plain decimal
literals; float values are kept as their accepted literal string since no
verified claim depends on float arithmetic. -/
def goParseFloat (s : String) : Except String String :=
  let body :=
    match s.data with
    | '+' :: rest => rest
    | '-' :: rest => rest
    | cs => cs
  let ok :=
    match body.span Char.isDigit with
    | (ds, []) => !ds.isEmpty
    | (ds, '.' :: frac) => !ds.isEmpty && frac.all Char.isDigit && !frac.isEmpty
    | _ => false
  if ok then .ok s
  else .error ("strconv.ParseFloat: parsing \"" ++ s ++ "\": invalid syntax")

/-- Two's-complement truncation performed by `reflect.Value.SetInt` when the
destination field is `w` bits wide. -/
def wrapSigned (w : Nat) (n : Int) : Int :=
  (n + 2 ^ (w - 1)) % (2 ^ w : Nat) - 2 ^ (w - 1)

/-- Truncation performed by `reflect.Value.SetUint` for a `w`-bit field. -/
def wrapUnsigned (w : Nat) (n : Nat) : Nat :=
  n % 2 ^ w

/-! ### The Go type and value model

`GType` models the shapes `reflect.Type` distinguishes in this code base:
primitives with their bit width, slices, pointers, structs (an empty name
marks an anonymous struct type) and an opaque remainder. A struct field
carries its name, its tag map and an exported flag. -/

mutual
inductive GType where
  | str : GType
  | i : Nat → GType
  | u : Nat → GType
  | fl : GType
  | bo : GType
  | slice : GType → GType
  | ptr : GType → GType
  | strc : String → List GField → GType
  | other : GType

inductive GField where
  | mk : String → List (String × String) → GType → Bool → GField
end

def GField.name : GField → String
  | .mk n _ _ _ => n

def GField.tags : GField → List (String × String)
  | .mk _ t _ _ => t

def GField.ty : GField → GType
  | .mk _ _ t _ => t

def GField.exported : GField → Bool
  | .mk _ _ _ e => e

/-- Runtime values populating a schema instance. Floats keep their accepted
literal; `vnil` is the zero value of pointers and opaque kinds. -/
inductive GVal where
  | vstr : String → GVal
  | vint : Int → GVal
  | vuint : Nat → GVal
  | vfloat : String → GVal
  | vbool : Bool → GVal
  | vstruct : List (String × GVal) → GVal
  | vslice : List GVal → GVal
  | vnil : GVal

mutual
/-- The Go zero value of a type. -/
def zeroVal : GType → GVal
  | .str => .vstr ""
  | .i _ => .vint 0
  | .u _ => .vuint 0
  | .fl => .vfloat "0"
  | .bo => .vbool false
  | .slice _ => .vslice []
  | .ptr _ => .vnil
  | .strc _ fs => .vstruct (zeroFields fs)
  | .other => .vnil
termination_by structural t => t

def zeroFields : List GField → List (String × GVal)
  | [] => []
  | .mk n _ ty _ :: rest => (n, zeroVal ty) :: zeroFields rest
termination_by structural fs => fs
end

/-! ### Struct tag helpers (schema.go) -/

/-- `field.Tag.Get(tagName)`: empty string when the tag is absent. -/
def tagGet (f : GField) (tagName : String) : String :=
  match f.tags.lookup tagName with
  | none => ""
  | some v => v

/-- `getTagValue`: first comma-separated part of the tag, `""` when absent. -/
def getTagValue (f : GField) (tagName : String) : String :=
  let tag := tagGet f tagName
  if tag = "" then "" else firstCommaPart tag

/-- `isRequired`: any of the recognized tags contains the `required` marker. -/
def isRequired (f : GField) : Bool :=
  ["validate", "binding", "query", "param", "json"].any fun tagName =>
    strContains (tagGet f tagName) "required"

/-- `hasRequiredFields` over the fields of a struct type. -/
def hasRequiredFieldsL (fields : List GField) : Bool :=
  fields.any isRequired

/-! ### The live request (gin context, external collaborator)

`jsonBody` models the outcome `c.ShouldBindJSON` would produce for the Body
type: `some v` for a successful decode, `none` for invalid JSON. It is
consulted only when `contentLength ≠ 0`. -/

structure Request where
  params : List (String × String)
  query : List (String × String)
  headers : List (String × String)
  cookies : List (String × String)
  contentLength : Nat
  jsonBody : Option GVal

/-- `c.Param(name)`: empty string when the path parameter is absent. -/
def Request.param (r : Request) (name : String) : String :=
  match r.params.lookup name with
  | none => ""
  | some v => v

/-- `c.Query(name)`: empty string when the query key is absent. -/
def Request.q (r : Request) (name : String) : String :=
  match r.query.lookup name with
  | none => ""
  | some v => v

/-- `c.GetHeader(name)`. -/
def Request.header (r : Request) (name : String) : String :=
  match r.headers.lookup name with
  | none => ""
  | some v => v

/-- `c.Cookie(name)` with the error ignored, as the source does. -/
def Request.cookie (r : Request) (name : String) : String :=
  match r.cookies.lookup name with
  | none => ""
  | some v => v

/-! ### Field assignment (`setFieldValue`, schema.go) -/

/-- `setFieldValue`: convert the raw string by the field kind and store it.
Integer kinds parse at 64-bit width (`ParseInt`/`ParseUint` with bitSize 64)
and the store truncates to the field width, exactly as `reflect.Value.SetInt`
and `SetUint` do. -/
def setFieldValue (t : GType) (value : String) : Except String GVal :=
  match t with
  | .str => .ok (.vstr value)
  | .i w =>
      match goParseInt64 value with
      | .error e => .error e
      | .ok n => .ok (.vint (wrapSigned w n))
  | .u w =>
      match goParseUint64 value with
      | .error e => .error e
      | .ok n => .ok (.vuint (wrapUnsigned w n))
  | .fl =>
      match goParseFloat value with
      | .error e => .error e
      | .ok f => .ok (.vfloat f)
  | .bo =>
      match goParseBool value with
      | .error e => .error e
      | .ok b => .ok (.vbool b)
  | .slice _ => .error "unsupported field type: slice"
  | .ptr _ => .error "unsupported field type: ptr"
  | .strc _ _ => .error "unsupported field type: struct"
  | .other => .error "unsupported field type: other"

/-! ### The assignment pass (`parseParams`, `parseQuery`, `parseBody`) -/

/-- `parseParams` body for one field: the populated value, `none` to leave the
zero value, or an error. -/
def parseParamField (r : Request) (f : GField) : Except String (Option GVal) :=
  if !f.exported then .ok none
  else
    let paramName₀ := getTagValue f "param"
    let paramName := if paramName₀ = "" then strLower f.name else paramName₀
    let paramValue := r.param paramName
    if paramValue = "" then
      if isRequired f then
        .error ("required param " ++ sq ++ paramName ++ sq ++ " is missing")
      else .ok none
    else
      match setFieldValue f.ty paramValue with
      | .error e => .error ("invalid param " ++ sq ++ paramName ++ sq ++ ": " ++ e)
      | .ok v => .ok (some v)

/-- `parseParams` over the Params sub-struct fields, producing the populated
sub-instance (unset fields keep their zero value). -/
def parseParamsL (r : Request) : List GField → Except String (List (String × GVal))
  | [] => .ok []
  | f :: rest =>
      match parseParamField r f with
      | .error e => .error e
      | .ok v =>
          match parseParamsL r rest with
          | .error e => .error e
          | .ok vs => .ok ((f.name, v.getD (zeroVal f.ty)) :: vs)

/-- `parseQuery` body for one field, mirroring the tag lookup, the exact/
lowercase field-name fallbacks and the default value. -/
def parseQueryField (r : Request) (f : GField) : Except String (Option GVal) :=
  if !f.exported then .ok none
  else
    let tagName := getTagValue f "query"
    let queryName₀ := if tagName = "" then f.name else tagName
    let queryValue₀ := r.q queryName₀
    let lookedUp : String × String :=
      if queryValue₀ = "" then
        if r.q f.name ≠ "" then (r.q f.name, f.name)
        else if r.q (strLower f.name) ≠ "" then (r.q (strLower f.name), strLower f.name)
        else (queryValue₀, queryName₀)
      else (queryValue₀, queryName₀)
    let queryValue := lookedUp.1
    let queryName := lookedUp.2
    if queryValue = "" then
      let defaultVal := getTagValue f "default"
      if defaultVal ≠ "" then
        match setFieldValue f.ty defaultVal with
        | .error e => .error ("invalid query param " ++ sq ++ queryName ++ sq ++ ": " ++ e)
        | .ok v => .ok (some v)
      else if isRequired f then
        .error ("required query param " ++ sq ++ queryName ++ sq ++ " is missing")
      else .ok none
    else
      match setFieldValue f.ty queryValue with
      | .error e => .error ("invalid query param " ++ sq ++ queryName ++ sq ++ ": " ++ e)
      | .ok v => .ok (some v)

/-- `parseQuery` over the Query sub-struct fields. -/
def parseQueryL (r : Request) : List GField → Except String (List (String × GVal))
  | [] => .ok []
  | f :: rest =>
      match parseQueryField r f with
      | .error e => .error e
      | .ok v =>
          match parseQueryL r rest with
          | .error e => .error e
          | .ok vs => .ok ((f.name, v.getD (zeroVal f.ty)) :: vs)

/-- `parseBody`: an empty body is an error exactly when some Body field is
required, and is otherwise skipped leaving the zero value; a non-empty body is
decoded as one JSON document bound to the whole sub-record. -/
def parseBodyV (r : Request) (bodyTy : GType) (fields : List GField) :
    Except String GVal :=
  if r.contentLength = 0 then
    if hasRequiredFieldsL fields then .error "request body is required"
    else .ok (zeroVal bodyTy)
  else
    match r.jsonBody with
    | none => .error "invalid JSON body: invalid character"
    | some v => .ok v

/-! ### The validator pass (go-playground/validator, external collaborator)

The library runs every rule written in a field's `validate` tag and recurses
into nested structs. The model implements the `required` rule — a zero value
fails, including a deep-zero nested struct for a required struct-typed
field — which is the only rule the concrete schemas of the verified claims
carry. All other rules (min/max/len/format/…) are driven by the same
`validate` tag; every theorem that needs the validator pass to succeed on a
*class* of schemas therefore assumes the `validate` tag empty throughout the
schema (`noValidationDeep` below), under which any tag-driven rule set —
modelled or not — passes vacuously, so those theorems do not depend on the
rules left out of the model. -/

def isZeroGVal : GVal → Bool
  | .vstr s => s = ""
  | .vint n => n = 0
  | .vuint n => n = 0
  | .vfloat s => s = "0"
  | .vbool b => b = false
  | .vstruct _ => false
  | .vslice vs => vs.isEmpty
  | .vnil => true

mutual
/-- Deep zero test (`reflect.Value.IsZero` as the library's `required` rule
uses it): a struct is zero when all its components are. -/
def isZeroDeep : GVal → Bool
  | .vstruct vs => isZeroFieldsDeep vs
  | v => isZeroGVal v
termination_by structural v => v

def isZeroFieldsDeep : List (String × GVal) → Bool
  | [] => true
  | (_, v) :: rest => isZeroDeep v && isZeroFieldsDeep rest
termination_by structural vs => vs
end

/-- One validator failure message, in the library's format. -/
def validatorMsg (fieldName : String) : String :=
  "Key: " ++ sq ++ fieldName ++ sq ++ " Error:Field validation for " ++ sq ++
    fieldName ++ sq ++ " failed on the " ++ sq ++ "required" ++ sq ++ " tag"

mutual
/-- `validate.Struct` model: first failing `required` rule, walking nested
structs; `none` means the instance passes. -/
def validateFields : List GField → List (String × GVal) → Option String
  | [], _ => none
  | f :: rest, inst =>
      let v := (inst.lookup f.name).getD (zeroVal f.ty)
      match validateOne f v with
      | some e => some e
      | none => validateFields rest inst
termination_by structural fs _ => fs

def validateOne : GField → GVal → Option String
  | .mk n tags (.strc sn sub) e, .vstruct vs =>
      if strContains (tagGet (.mk n tags (.strc sn sub) e) "validate") "required" &&
          isZeroDeep (.vstruct vs) then
        some (validatorMsg n)
      else validateFields sub vs
  | f, v =>
      if strContains (tagGet f "validate") "required" && isZeroGVal v then
        some (validatorMsg f.name)
      else none
termination_by structural f _ => f
end

/-! ### `parseSchema`: the two-pass parse over the top-level schema fields -/

/-- One top-level field of the first pass: only the sub-records literally
named `Params`, `Query` or `Body` (case-insensitive) are assigned; every
other field keeps its zero value. A `Params`/`Query`/`Body` field that is
not a struct would make the Go code panic in `NumField`; the model returns a
distinguished error for it. -/
def parseTopField (r : Request) (f : GField) : Except String GVal :=
  if !f.exported then .ok (zeroVal f.ty)
  else if strLower f.name = "params" then
    match f.ty with
    | .strc _ fs =>
        match parseParamsL r fs with
        | .error e => .error ("params validation failed: " ++ e)
        | .ok vs => .ok (.vstruct vs)
    | _ => .error "panic: reflect: NumField of non-struct type"
  else if strLower f.name = "query" then
    match f.ty with
    | .strc _ fs =>
        match parseQueryL r fs with
        | .error e => .error ("query validation failed: " ++ e)
        | .ok vs => .ok (.vstruct vs)
    | _ => .error "panic: reflect: NumField of non-struct type"
  else if strLower f.name = "body" then
    match f.ty with
    | .strc _ fs =>
        match parseBodyV r f.ty fs with
        | .error e => .error ("body validation failed: " ++ e)
        | .ok v => .ok v
    | _ => .error "panic: reflect: NumField of non-struct type"
  else .ok (zeroVal f.ty)

/-- First pass of `parseSchema` over all top-level fields. -/
def parseSchemaFields (r : Request) : List GField → Except String (List (String × GVal))
  | [] => .ok []
  | f :: rest =>
      match parseTopField r f with
      | .error e => .error e
      | .ok v =>
          match parseSchemaFields r rest with
          | .error e => .error e
          | .ok vs => .ok ((f.name, v) :: vs)

/-- `parseSchema`: assignment pass in declaration order, then the validator
pass over the whole instance. -/
def parseSchema (r : Request) (fields : List GField) :
    Except String (List (String × GVal)) :=
  match parseSchemaFields r fields with
  | .error e => .error e
  | .ok inst =>
      match validateFields fields inst with
      | some e => .error ("validation failed: " ++ e)
      | none => .ok inst

/-! ### Error taxonomy mapper (`convertToErrorResult`, schema.go) -/

/-- A Go `error` reaching the boundary: either an explicit `SchemaError`
carrying a user code and message, or a plain error identified by its text. -/
inductive GoErr where
  | schemaErr : String → String → GoErr
  | err : String → GoErr

structure ErrorResult where
  success : Bool
  code : String
  message : String
deriving DecidableEq

/-- `NotOk(code, message)`. -/
def NotOk (code message : String) : ErrorResult :=
  ⟨false, code, message⟩

/-- `extractValidationMessage`. -/
def extractValidationMessage (errMsg : String) : String :=
  match strIndexOf errMsg "validation failed: " with
  | some idx => strDrop errMsg (idx + strLen "validation failed: ")
  | none =>
      match strIndexOf errMsg ": " with
      | some idx => strDrop errMsg (idx + 2)
      | none => errMsg

/-- `convertToErrorResult`: the boundary mapping from errors to the uniform
error-result shape, with its cases tested in source order. -/
def convertToErrorResult (e : GoErr) : ErrorResult :=
  match e with
  | .schemaErr code msg => NotOk code msg
  | .err errMsg =>
      if strContains errMsg "params validation failed" then
        NotOk "ERR_INVALID_PARAMS" (extractValidationMessage errMsg)
      else if strContains errMsg "query validation failed" then
        NotOk "ERR_INVALID_QUERY" (extractValidationMessage errMsg)
      else if strContains errMsg "body validation failed" then
        NotOk "ERR_INVALID_BODY" (extractValidationMessage errMsg)
      else if strContains errMsg "validation failed" then
        NotOk "ERR_VALIDATION_FAILED" (extractValidationMessage errMsg)
      else if strContains errMsg "required" && strContains errMsg "missing" then
        NotOk "ERR_MISSING_REQUIRED" errMsg
      else if strContains errMsg "invalid JSON" then
        NotOk "ERR_INVALID_JSON" "Request body contains invalid JSON"
      else
        NotOk "ERR_NOT_SPECIFIED" "An unknown exception occurred"

/-! ### JSON schema nodes (`JSONSchema`, openapi generation) -/

/-- The generated schema node: type, properties, items, required set, `$ref`,
default, numeric and length bounds, format. Fields the verified claims never
inspect (description, example, pattern, additionalProperties) are omitted;
numeric tag values are modelled as integers. -/
inductive JSchema where
  | mk : String → List (String × JSchema) → Option JSchema → List String →
      String → Option GVal → Option Int → Option Int → Option Int →
      Option Int → String → JSchema

def JSchema.type : JSchema → String
  | .mk t _ _ _ _ _ _ _ _ _ _ => t

def JSchema.properties : JSchema → List (String × JSchema)
  | .mk _ p _ _ _ _ _ _ _ _ _ => p

def JSchema.items : JSchema → Option JSchema
  | .mk _ _ i _ _ _ _ _ _ _ _ => i

def JSchema.required : JSchema → List String
  | .mk _ _ _ r _ _ _ _ _ _ _ => r

def JSchema.ref : JSchema → String
  | .mk _ _ _ _ r _ _ _ _ _ _ => r

def JSchema.defaultVal : JSchema → Option GVal
  | .mk _ _ _ _ _ d _ _ _ _ _ => d

def JSchema.minimum : JSchema → Option Int
  | .mk _ _ _ _ _ _ m _ _ _ _ => m

/-- Names of the properties of a node, used to tell nodes apart. -/
def JSchema.propNames (s : JSchema) : List String :=
  s.properties.map Prod.fst

/-- `newJSONSchema(schemaType, properties)`. -/
def newJSONSchema (schemaType : String) (properties : List (String × JSchema)) : JSchema :=
  .mk schemaType properties none [] "" none none none none none ""

/-- `&JSONSchema{Ref: "#/components/schemas/" + name}`. -/
def refSchema (name : String) : JSchema :=
  .mk "" [] none [] ("#/components/schemas/" ++ name) none none none none none ""

def JSchema.withItems : JSchema → JSchema → JSchema
  | .mk t p _ r rf d mn mx mnl mxl fo, it => .mk t p (some it) r rf d mn mx mnl mxl fo

def JSchema.withRequired : JSchema → List String → JSchema
  | .mk t p i _ rf d mn mx mnl mxl fo, r => .mk t p i r rf d mn mx mnl mxl fo

def JSchema.withMinimum : JSchema → Int → JSchema
  | .mk t p i r rf d _ mx mnl mxl fo, mn => .mk t p i r rf d (some mn) mx mnl mxl fo

def JSchema.withMaximum : JSchema → Int → JSchema
  | .mk t p i r rf d mn _ mnl mxl fo, mx => .mk t p i r rf d mn (some mx) mnl mxl fo

def JSchema.withMinLength : JSchema → Int → JSchema
  | .mk t p i r rf d mn mx _ mxl fo, v => .mk t p i r rf d mn mx (some v) mxl fo

def JSchema.withMaxLength : JSchema → Int → JSchema
  | .mk t p i r rf d mn mx mnl _ fo, v => .mk t p i r rf d mn mx mnl (some v) fo

def JSchema.withFormat : JSchema → String → JSchema
  | .mk t p i r rf d mn mx mnl mxl _, fo => .mk t p i r rf d mn mx mnl mxl fo

/-- Go map assignment on an association list: overwrite in place, else append. -/
def mapSet {α : Type} : List (String × α) → String → α → List (String × α)
  | [], k, v => [(k, v)]
  | (k', v') :: rest, k, v =>
      if k' = k then (k, v) :: rest else (k', v') :: mapSet rest k v

/-- Generation state: the named-schema table of one generation pass, plus a
ghost append-only log of every map write, used solely to state the
write-once invariant; the log never influences the table. -/
structure GenSt where
  table : List (String × JSchema)
  log : List (String × JSchema)

def GenSt.empty : GenSt := ⟨[], []⟩

/-- `schemas[schemaName] = schema` (with its ghost log record). -/
def storeSchema (st : GenSt) (name : String) (node : JSchema) : GenSt :=
  ⟨mapSet st.table name node, st.log ++ [(name, node)]⟩

/-- `getJSONFieldName`: the json tag's name part, else the lowercase field name. -/
def getJSONFieldName (f : GField) : String :=
  let jsonTag := tagGet f "json"
  if jsonTag = "" then strLower f.name
  else
    let p := firstCommaPart jsonTag
    if p = "" then strLower f.name else p

/-- The context name handed to a field's schema generation: only a field whose
type is literally an anonymous struct (not a pointer or slice of one) gets
`parentName ++ capitalizedJsonName`; every other field gets `""`. -/
def fieldContextName (schemaName contextName : String) (f : GField) : String :=
  match f.ty with
  | .strc "" _ =>
      let parentName := if schemaName = "AnonymousStruct" then contextName else schemaName
      parentName ++ capitalize (getJSONFieldName f)
  | _ => ""

/-- `addValidationConstraints`: min/max bounds (length bounds for strings) and
the email format, from the `validate` tag. -/
def addValidationConstraints (schema : JSchema) (f : GField) : JSchema :=
  let validateTag := tagGet f "validate"
  if validateTag = "" then schema
  else
    (strSplitOn validateTag ',').foldl (fun s c =>
      let c := trimSpace c
      if strStarts c "min=" then
        match goParseInt64 (strDrop c 4) with
        | .ok v => if s.type = "string" then s.withMinLength v else s.withMinimum v
        | .error _ => s
      else if strStarts c "max=" then
        match goParseInt64 (strDrop c 4) with
        | .ok v => if s.type = "string" then s.withMaxLength v else s.withMaximum v
        | .error _ => s
      else if c = "email" then s.withFormat "email"
      else s) schema

/-- The schema-name resolution of `generateStructSchemaWithContext`: the
type's own name, else the context name, else `"AnonymousStruct"`. -/
def resolveSchemaName (typeName contextName : String) : String :=
  if typeName ≠ "" then typeName
  else if contextName ≠ "" then contextName
  else "AnonymousStruct"

mutual
/-- `generateJSONSchemaFromTypeWithContext`: one pointer dereference, then
dispatch on the kind; slices pass `contextName ++ "Item"` to their element.
The struct case inlines `generateStructSchemaWithContext` (whose own pointer
dereference and struct check are no-ops on this path): resolve the schema
name, reuse the stored node through a `$ref` when the name is already
present, otherwise generate the node from the fields and store it — an
unconditional map write — returning a `$ref` either way. -/
def genTypeCtx (t : GType) (st : GenSt) (contextName : String) : GenSt × JSchema :=
  match t with
  | .str => (st, newJSONSchema "string" [])
  | .ptr .str => (st, newJSONSchema "string" [])
  | .i _ => (st, newJSONSchema "integer" [])
  | .ptr (.i _) => (st, newJSONSchema "integer" [])
  | .u _ => (st, (newJSONSchema "integer" []).withMinimum 0)
  | .ptr (.u _) => (st, (newJSONSchema "integer" []).withMinimum 0)
  | .fl => (st, newJSONSchema "number" [])
  | .ptr .fl => (st, newJSONSchema "number" [])
  | .bo => (st, newJSONSchema "boolean" [])
  | .ptr .bo => (st, newJSONSchema "boolean" [])
  | .slice e =>
      let (st', items) := genTypeCtx e st (contextName ++ "Item")
      (st', (newJSONSchema "array" []).withItems items)
  | .ptr (.slice e) =>
      let (st', items) := genTypeCtx e st (contextName ++ "Item")
      (st', (newJSONSchema "array" []).withItems items)
  | .strc tname fields =>
      let schemaName := resolveSchemaName tname contextName
      if (st.table.lookup schemaName).isSome then
        (st, refSchema schemaName)
      else
        let (st', props, reqd) := genFieldLoop schemaName contextName fields st [] []
        let schema := (newJSONSchema "object" props).withRequired reqd
        (storeSchema st' schemaName schema, refSchema schemaName)
  | .ptr (.strc tname fields) =>
      let schemaName := resolveSchemaName tname contextName
      if (st.table.lookup schemaName).isSome then
        (st, refSchema schemaName)
      else
        let (st', props, reqd) := genFieldLoop schemaName contextName fields st [] []
        let schema := (newJSONSchema "object" props).withRequired reqd
        (storeSchema st' schemaName schema, refSchema schemaName)
  | .ptr (.ptr _) => (st, newJSONSchema "object" [])
  | .ptr .other => (st, newJSONSchema "object" [])
  | .other => (st, newJSONSchema "object" [])
termination_by structural t

/-- The field loop of `generateStructSchemaWithContext`: skip unexported
fields and `json:"-"`, generate each field schema with its context name, add
tag constraints, accumulate the properties map and the required list. -/
def genFieldLoop (schemaName contextName : String) (fields : List GField)
    (st : GenSt) (accProps : List (String × JSchema)) (accReqd : List String) :
    GenSt × List (String × JSchema) × List String :=
  match fields with
  | [] => (st, accProps, accReqd)
  | .mk fname ftags fty fexp :: rest =>
      let f := GField.mk fname ftags fty fexp
      if !f.exported then genFieldLoop schemaName contextName rest st accProps accReqd
      else
        let jsonName := getJSONFieldName f
        if jsonName = "-" then genFieldLoop schemaName contextName rest st accProps accReqd
        else
          let fieldCtx := fieldContextName schemaName contextName f
          let (st', fs) := genTypeCtx fty st fieldCtx
          let fs := addValidationConstraints fs f
          let accProps := mapSet accProps jsonName fs
          let accReqd := if isRequired f then accReqd ++ [jsonName] else accReqd
          genFieldLoop schemaName contextName rest st' accProps accReqd
termination_by structural fields
end

/-- `generateStructSchemaWithContext` as called on a struct type. -/
def genStructNamed (tname : String) (fields : List GField) (st : GenSt)
    (contextName : String) : GenSt × JSchema :=
  genTypeCtx (.strc tname fields) st contextName

/-- `generateJSONSchemaFromType`: entry point with an empty context. -/
def genType (t : GType) (st : GenSt) : GenSt × JSchema :=
  genTypeCtx t st ""

/-- `isQueryParameter`: only primitives, sequences of primitives and pointers
to primitives auto-detect as query parameters; records, pointers to records
and sequences of records never do. -/
def isPrimKind : GType → Bool
  | .str => true
  | .i _ => true
  | .u _ => true
  | .fl => true
  | .bo => true
  | _ => false

def isQueryParameter (f : GField) : Bool :=
  match f.ty with
  | .strc _ _ => false
  | .ptr (.strc _ _) => false
  | .slice (.strc _ _) => false
  | t =>
      if isPrimKind t then true
      else
        match t with
        | .slice e => isPrimKind e
        | .ptr e => isPrimKind e
        | _ => false

/-- `getQueryParameterName`: explicit query tag, else json name, else the
lowercase field name. -/
def getQueryParameterName (f : GField) : String :=
  let qn := getTagValue f "query"
  if qn ≠ "" then qn
  else
    let jn := getJSONFieldName f
    if jn ≠ "" ∧ jn ≠ "-" then jn else strLower f.name

/-! ### Security schemes (security.go)

`APIKeySecurity`, `BearerSecurity` and `MultiSecurity` with their validation
predicates as optional functions of the live request, exactly as the config
fields `ValidateKey`/`ValidateToken` may be nil. -/

inductive SecScheme where
  | apiKey : String → String → String → String →
      Option (Request → String → Bool) → SecScheme
  | bearer : String → String → String →
      Option (Request → String → Bool) → SecScheme
  | multi : String → List SecScheme → SecScheme

def SecScheme.schemeName : SecScheme → String
  | .apiKey n _ _ _ _ => n
  | .bearer n _ _ _ => n
  | .multi n _ => n

/-- Acceptance condition of `APIKeySecurity.Middleware`: extract the key from
the configured location (an unknown location aborts), reject the empty key,
then run the validator when one is configured. -/
def apiKeyAccepts (inLoc keyName : String)
    (validateKey : Option (Request → String → Bool)) (r : Request) : Bool :=
  let key :=
    if inLoc = "header" then some (r.header keyName)
    else if inLoc = "query" then some (r.q keyName)
    else if inLoc = "cookie" then some (r.cookie keyName)
    else none
  match key with
  | none => false
  | some k =>
      if k = "" then false
      else
        match validateKey with
        | none => true
        | some f => f r k

/-- Acceptance condition of `BearerSecurity.Middleware`: an `Authorization`
header at least 7 bytes long with a case-insensitive `bearer ` prefix, a
non-empty token after it, then the validator when one is configured. -/
def bearerAccepts (validateToken : Option (Request → String → Bool))
    (r : Request) : Bool :=
  let authHeader := r.header "Authorization"
  if authHeader = "" then false
  else if strLen authHeader < 7 ∨ !strStarts (strLower authHeader) "bearer " then false
  else
    let token := strDrop authHeader 7
    if token = "" then false
    else
      match validateToken with
      | none => true
      | some f => f r token

/-- `MultiSecurity.tryScheme`: API-key and bearer components run their
predicate; every other component kind (including a nested `MultiSecurity`)
falls to the type-switch default and fails. -/
def tryScheme (s : SecScheme) (r : Request) : Bool :=
  match s with
  | .apiKey _ _ inLoc keyName vk => apiKeyAccepts inLoc keyName vk r
  | .bearer _ _ _ vt => bearerAccepts vt r
  | .multi _ _ => false

/-- Whether a scheme's middleware admits the request (calls `c.Next`). -/
def schemeAdmits (s : SecScheme) (r : Request) : Bool :=
  match s with
  | .apiKey _ _ inLoc keyName vk => apiKeyAccepts inLoc keyName vk r
  | .bearer _ _ _ vt => bearerAccepts vt r
  | .multi _ schemes => schemes.any fun c => tryScheme c r

/-- `GetSecurityScheme`: the scheme's name and its OpenAPI fragment. -/
def getSecurityScheme (s : SecScheme) : String × List (String × String) :=
  match s with
  | .apiKey n desc inLoc keyName _ =>
      (n, [("type", "apiKey"), ("in", inLoc), ("name", keyName)] ++
          (if desc ≠ "" then [("description", desc)] else []))
  | .bearer n desc format _ =>
      (n, [("type", "http"), ("scheme", "bearer")] ++
          (if desc ≠ "" then [("description", desc)] else []) ++
          (if format ≠ "" then [("bearerFormat", format)] else []))
  | .multi n _ =>
      (n, [("type", "http"),
           ("description", "Multiple authentication methods accepted (any one will work)")])

/-- One security requirement entry: a map from scheme name to scopes. -/
abbrev SecReq := List (String × List String)

/-- Shared named-security-scheme table. -/
abbrev SecTable := List (String × List (String × String))

/-- Idempotent registration: `if _, exists := securitySchemes[name]; !exists`. -/
def registerSecSpec (tbl : SecTable) (name : String)
    (spec : List (String × String)) : SecTable :=
  if (tbl.lookup name).isSome then tbl else mapSet tbl name spec

/-- The security block of `generateOperation`: a `MultiSecurity` registers
each component scheme and emits one single-scheme requirement per component
(OR); a regular scheme registers itself and emits its own single-scheme
requirement. -/
def generateOperationSecurity (schemes : List SecScheme) (tbl : SecTable) :
    SecTable × List SecReq :=
  match schemes with
  | [] => (tbl, [])
  | s :: rest =>
      let (tbl', reqs) :=
        match s with
        | .multi _ comps =>
            let tbl₁ := comps.foldl (fun t c =>
              registerSecSpec t (getSecurityScheme c).1 (getSecurityScheme c).2) tbl
            (tbl₁, comps.map fun c => ([((getSecurityScheme c).1, ([] : List String))] : SecReq))
        | _ =>
            let (name, spec) := getSecurityScheme s
            (registerSecSpec tbl name spec, ([[(name, ([] : List String))]] : List SecReq))
      let (tblRest, reqsRest) := generateOperationSecurity rest tbl'
      (tblRest, reqs ++ reqsRest)

/-- A scheme the `MultiSecurity.tryScheme` type switch recognizes. -/
def isSimpleScheme : SecScheme → Bool
  | .apiKey _ _ _ _ _ => true
  | .bearer _ _ _ _ => true
  | .multi _ _ => false

/-! ### Deep absence of required markers

`noReqDeep fields` holds when no field of the struct — recursively through
nested struct fields — carries a required marker in any recognized tag. -/

mutual
def noReqDeep : List GField → Bool
  | [] => true
  | f :: rest => noReqField f && noReqDeep rest
termination_by structural fs => fs

def noReqField : GField → Bool
  | .mk n tags ty e =>
      !isRequired (.mk n tags ty e) &&
        (match ty with
         | .strc _ sub => noReqDeep sub
         | _ => true)
termination_by structural f => f
end

/-! ### Deep absence of validation rules

`noValidationDeep fields` holds when, recursively through nested struct
fields, no field carries any content in its `validate` tag and no field
carries a required marker in any recognized tag. Under this condition the
library's validator pass — whatever rules the `validate` tag could drive —
has nothing to enforce and passes on every instance. -/

mutual
def noValidationDeep : List GField → Bool
  | [] => true
  | f :: rest => noValidationField f && noValidationDeep rest
termination_by structural fs => fs

def noValidationField : GField → Bool
  | .mk n tags ty e =>
      !isRequired (.mk n tags ty e) &&
        (tagGet (.mk n tags ty e) "validate" == "") &&
        (match ty with
         | .strc _ sub => noValidationDeep sub
         | _ => true)
termination_by structural f => f
end

/-! ### Concrete fixtures used by the claims -/

/-- The scenario schema: `Params.ID : string` required, `Query.Limit : int`
with declared default 10 and no Body. -/
def itemSchemaFields : List GField :=
  [.mk "Params" [] (.strc "" [.mk "ID" [("param", "id"), ("validate", "required")] .str true]) true,
   .mk "Query" [] (.strc "" [.mk "Limit" [("default", "10")] (.i 64) true]) true]

/-- A request carrying path parameter `id = "42"` and an empty query string. -/
def req4 : Request := ⟨[("id", "42")], [], [], [], 0, none⟩

/-- The same path parameter with query `limit=abc`. -/
def req5 : Request := ⟨[("id", "42")], [("limit", "abc")], [], [], 0, none⟩

/-- The parse error text produced for `limit=abc`. -/
def msg5 : String :=
  "query validation failed: invalid query param " ++ sq ++ "limit" ++ sq ++
    ": strconv.ParseInt: parsing \"abc\": invalid syntax"

/-- Schema whose Query sub-record has a required integer field with no
default, for exercising the missing-required path. -/
def reqLimitSchemaFields : List GField :=
  [.mk "Query" [] (.strc "" [.mk "Limit" [("validate", "required")] (.i 64) true]) true]

/-- A request carrying nothing at all. -/
def emptyReq : Request := ⟨[], [], [], [], 0, none⟩

/-- The parse error text for the missing required query parameter. -/
def msg2 : String :=
  "query validation failed: required query param " ++ sq ++ "Limit" ++ sq ++ " is missing"

/-- A plain integer schema node. -/
def intNode : JSchema := .mk "integer" [] none [] "" none none none none none ""

/-- A plain string schema node. -/
def strNode : JSchema := .mk "string" [] none [] "" none none none none none ""

/-- A named Go struct type `AB` with one integer field `X`. -/
def ABty : GType := .strc "AB" [.mk "X" [] (.i 64) true]

/-- A named struct `A` whose field `B` is an anonymous struct containing a
field of the named type `AB`: the anonymous struct's context name collides
with the named type's name. -/
def Aty : GType := .strc "A" [.mk "B" [] (.strc "" [.mk "Inner" [] ABty true]) true]

/-- Reference node to `AB`. -/
def refAB : JSchema := .mk "" [] none [] "#/components/schemas/AB" none none none none none ""

/-- The node generated from the named type `AB`. -/
def nodeAB1 : JSchema := .mk "object" [("x", intNode)] none [] "" none none none none none ""

/-- The node generated from the anonymous struct that also resolves to `AB`. -/
def nodeAB2 : JSchema := .mk "object" [("inner", refAB)] none [] "" none none none none none ""

/-- The node generated for `A`. -/
def nodeA : JSchema := .mk "object" [("b", refAB)] none [] "" none none none none none ""

/-- Response type `SearchResponse` with an anonymous nested record field `Page`. -/
def SearchResponseTy : GType :=
  .strc "SearchResponse"
    [.mk "Results" [] (.slice .str) true,
     .mk "Page" [] (.strc "" [.mk "Number" [] (.i 64) true, .mk "Size" [] (.i 64) true]) true]

/-- The node stored under `SearchResponsePage`. -/
def nodePage : JSchema :=
  .mk "object" [("number", intNode), ("size", intNode)] none [] "" none none none none none ""

/-- The node stored under `SearchResponse`. -/
def nodeSearchResponse : JSchema :=
  .mk "object"
    [("results", .mk "array" [] (some strNode) [] "" none none none none none ""),
     ("page", .mk "" [] none [] "#/components/schemas/SearchResponsePage" none none none none none "")]
    none [] "" none none none none none ""

/-- A named struct `S` whose field `Tags` is a sequence of anonymous records. -/
def Sty : GType := .strc "S" [.mk "Tags" [] (.slice (.strc "" [.mk "N" [] .str true])) true]

/-- An API-key scheme accepting the header key `good`. -/
def kA : SecScheme := .apiKey "ApiKeyAuth" "" "header" "X-Key" (some fun _ s => s = "good")

/-- A bearer scheme accepting the token `tok`. -/
def bA : SecScheme := .bearer "BearerAuth" "" "JWT" (some fun _ t => t = "tok")

/-- A Multi scheme whose single component is the API-key scheme. -/
def innerM : SecScheme := .multi "Inner" [kA]

/-- A Multi scheme whose single component is itself a Multi scheme. -/
def outerM : SecScheme := .multi "Outer" [innerM]

/-- A request carrying the valid API key in its header. -/
def reqKey : Request := ⟨[], [], [("X-Key", "good")], [], 0, none⟩

/-- A request carrying the valid bearer token. -/
def reqTok : Request := ⟨[], [], [("Authorization", "Bearer tok")], [], 0, none⟩

/-- A schema with one auto-detectable primitive top-level field next to the
recognized sub-records. -/
def extraField : GField := .mk "Extra" [] (.i 64) true

def extraSchemaFields : List GField :=
  [.mk "Query" [] (.strc "" [.mk "Limit" [("default", "10")] (.i 64) true]) true, extraField]

/-- A request that supplies a value for the unrecognized top-level field. -/
def reqExtra : Request := ⟨[], [("extra", "5"), ("Extra", "5")], [], [], 0, none⟩

/-- The wrapped parse error for a required query parameter named `qn` that is
absent with no default, exactly as `parseSchema` builds it. -/
def missingQueryMsg (qn : String) : String :=
  "query validation failed: " ++
    ("required query param " ++ sq ++ qn ++ sq ++ " is missing")

/-- The field-level error for a required path parameter that is absent,
exactly as `parseParams` builds it. -/
def missingParamFieldMsg (pn : String) : String :=
  "required param " ++ sq ++ pn ++ sq ++ " is missing"

/-- The field-level error for a required query parameter that is absent with
no default, exactly as `parseQuery` builds it. -/
def missingQueryFieldMsg (qn : String) : String :=
  "required query param " ++ sq ++ qn ++ sq ++ " is missing"

/-- The path-parameter name `parseParams` resolves for a field: the `param`
tag, else the lowercase field name. -/
def paramNameOf (f : GField) : String :=
  if getTagValue f "param" = "" then strLower f.name else getTagValue f "param"

/-- The first query name `parseQuery` resolves for a field: the `query` tag,
else the field name as written. -/
def queryNameOf (f : GField) : String :=
  if getTagValue f "query" = "" then f.name else getTagValue f "query"

/-- The panic message modelling `reflect.NumField` on a non-struct
`Params`/`Query`/`Body` field. -/
def numFieldPanicMsg : String := "panic: reflect: NumField of non-struct type"

/-- A schema whose Body sub-record has one required string field `Title`. -/
def bodyReqSchemaFields : List GField :=
  [.mk "Body" [] (.strc "" [.mk "Title" [("validate", "required")] .str true]) true]

/-- A request with a non-empty body that decodes without the required
`Title` field, leaving it at the zero value. -/
def reqBodyZeroTitle : Request := ⟨[], [], [], [], 1, some (.vstruct [("Title", .vstr "")])⟩

/-! ### Helper lemmas -/

theorem listContains_of_isPrefixOf {s pat : List Char} (h : pat.isPrefixOf s = true) :
    listContains s pat = true := by
  unfold listContains
  apply List.any_eq_true.mpr
  exact ⟨0, List.mem_range.mpr (Nat.succ_pos _), by simpa using h⟩

theorem listContains_append_left {l₁ l₂ pat : List Char}
    (h : listContains l₁ pat = true) : listContains (l₁ ++ l₂) pat = true := by
  unfold listContains at h ⊢
  obtain ⟨i, hmem, hpref⟩ := List.any_eq_true.mp h
  apply List.any_eq_true.mpr
  refine ⟨i, List.mem_range.mpr ?_, ?_⟩
  · have := List.mem_range.mp hmem
    simp only [List.length_append]
    omega
  · rw [List.drop_append_eq_append_drop]
    have hip : pat <+: l₁.drop i := List.isPrefixOf_iff_prefix.mp hpref
    exact List.isPrefixOf_iff_prefix.mpr (hip.trans (List.prefix_append _ _))

theorem listContains_append_right {l₁ l₂ pat : List Char}
    (h : listContains l₂ pat = true) : listContains (l₁ ++ l₂) pat = true := by
  unfold listContains at h ⊢
  obtain ⟨i, hmem, hpref⟩ := List.any_eq_true.mp h
  apply List.any_eq_true.mpr
  refine ⟨l₁.length + i, List.mem_range.mpr ?_, ?_⟩
  · have := List.mem_range.mp hmem
    simp only [List.length_append]
    omega
  · rw [List.drop_append_eq_append_drop]
    have h1 : List.drop (l₁.length + i) l₁ = [] := List.drop_eq_nil_of_le (by omega)
    have h2 : l₁.length + i - l₁.length = i := by omega
    rw [h1, h2]
    simpa using hpref

theorem strContains_append_left {s t pat : String}
    (h : strContains s pat = true) : strContains (s ++ t) pat = true := by
  unfold strContains at h ⊢
  rw [String.data_append]
  exact listContains_append_left h

theorem strContains_append_right {s t pat : String}
    (h : strContains t pat = true) : strContains (s ++ t) pat = true := by
  unfold strContains at h ⊢
  rw [String.data_append]
  exact listContains_append_right h

theorem strContains_of_front {s pat : String}
    (h : pat.data.isPrefixOf s.data = true) : strContains s pat = true :=
  listContains_of_isPrefixOf h

theorem strContains_append_left_of_front {s t pat : String}
    (h : pat.data.isPrefixOf s.data = true) : strContains (s ++ t) pat = true :=
  strContains_append_left (strContains_of_front h)

theorem lookup_mapSet_ne {α : Type} (tbl : List (String × α)) (k name : String)
    (v : α) (h : k ≠ name) : (mapSet tbl k v).lookup name = tbl.lookup name := by
  induction tbl with
  | nil =>
      simp only [mapSet, List.lookup]
      rw [beq_eq_false_iff_ne.mpr (Ne.symm h)]
  | cons hd rest ih =>
      obtain ⟨k', v'⟩ := hd
      simp only [mapSet]
      by_cases hk : k' = k
      · subst hk
        simp only [if_pos rfl, List.lookup]
        rw [beq_eq_false_iff_ne.mpr (Ne.symm h)]
      · simp only [if_neg hk, List.lookup]
        cases hbe : name == k' with
        | true => rfl
        | false => exact ih

mutual
theorem genTypeCtx_mono (t : GType) (st : GenSt) (c name : String) (n : JSchema)
    (h : st.table.lookup name = some n) :
    ((genTypeCtx t st c).1).table.lookup name = some n := by
  cases t with
  | str => simpa [genTypeCtx] using h
  | i w => simpa [genTypeCtx] using h
  | u w => simpa [genTypeCtx] using h
  | fl => simpa [genTypeCtx] using h
  | bo => simpa [genTypeCtx] using h
  | other => simpa [genTypeCtx] using h
  | slice e =>
      have ih := genTypeCtx_mono e st (c ++ "Item") name n h
      simp only [genTypeCtx]
      rcases hgen : genTypeCtx e st (c ++ "Item") with ⟨st', items⟩
      rw [hgen] at ih
      exact ih
  | strc tname fields =>
      simp only [genTypeCtx]
      by_cases hmem : (st.table.lookup (resolveSchemaName tname c)).isSome
      · simp only [hmem, if_pos]
        exact h
      · have hne : resolveSchemaName tname c ≠ name := by
          intro he
          rw [he, h] at hmem
          simp at hmem
        have ih := genFieldLoop_mono (resolveSchemaName tname c) c fields st [] [] name n h
        simp only [hmem, if_neg, Bool.false_eq_true, not_false_eq_true]
        rcases hgen : genFieldLoop (resolveSchemaName tname c) c fields st [] [] with ⟨st', props, reqd⟩
        rw [hgen] at ih
        simp only [storeSchema]
        exact (lookup_mapSet_ne _ _ _ _ hne).trans ih
  | ptr inner =>
      cases inner with
      | str => simpa [genTypeCtx] using h
      | i w => simpa [genTypeCtx] using h
      | u w => simpa [genTypeCtx] using h
      | fl => simpa [genTypeCtx] using h
      | bo => simpa [genTypeCtx] using h
      | other => simpa [genTypeCtx] using h
      | ptr e => simpa [genTypeCtx] using h
      | slice e =>
          have ih := genTypeCtx_mono e st (c ++ "Item") name n h
          simp only [genTypeCtx]
          rcases hgen : genTypeCtx e st (c ++ "Item") with ⟨st', items⟩
          rw [hgen] at ih
          exact ih
      | strc tname fields =>
          simp only [genTypeCtx]
          by_cases hmem : (st.table.lookup (resolveSchemaName tname c)).isSome
          · simp only [hmem, if_pos]
            exact h
          · have hne : resolveSchemaName tname c ≠ name := by
              intro he
              rw [he, h] at hmem
              simp at hmem
            have ih := genFieldLoop_mono (resolveSchemaName tname c) c fields st [] [] name n h
            simp only [hmem, if_neg, Bool.false_eq_true, not_false_eq_true]
            rcases hgen : genFieldLoop (resolveSchemaName tname c) c fields st [] [] with ⟨st', props, reqd⟩
            rw [hgen] at ih
            simp only [storeSchema]
            exact (lookup_mapSet_ne _ _ _ _ hne).trans ih
termination_by structural t

theorem genFieldLoop_mono (sn c : String) (fields : List GField) (st : GenSt)
    (aP : List (String × JSchema)) (aR : List String) (name : String) (n : JSchema)
    (h : st.table.lookup name = some n) :
    ((genFieldLoop sn c fields st aP aR).1).table.lookup name = some n := by
  cases fields with
  | nil => simpa [genFieldLoop] using h
  | cons f rest =>
      obtain ⟨fname, ftags, fty, fexp⟩ := f
      simp only [genFieldLoop]
      by_cases he : (!(GField.mk fname ftags fty fexp).exported) = true
      · simp only [he, if_pos]
        exact genFieldLoop_mono sn c rest st aP aR name n h
      · simp only [he, if_neg, Bool.false_eq_true, not_false_eq_true]
        by_cases hj : getJSONFieldName (GField.mk fname ftags fty fexp) = "-"
        · simp only [hj, if_pos]
          exact genFieldLoop_mono sn c rest st aP aR name n h
        · simp only [hj, if_neg, not_false_eq_true]
          have ih1 := genTypeCtx_mono fty st
            (fieldContextName sn c (GField.mk fname ftags fty fexp)) name n h
          rcases hgen : genTypeCtx fty st
            (fieldContextName sn c (GField.mk fname ftags fty fexp)) with ⟨st', fs⟩
          rw [hgen] at ih1
          exact genFieldLoop_mono sn c rest st' _ _ name n ih1
termination_by structural fields
end


theorem validate_tag_free {f : GField} (h : isRequired f = false) :
    strContains (tagGet f "validate") "required" = false := by
  simp only [isRequired, List.any_eq_false] at h
  have := h "validate" (by simp)
  simpa using this

mutual
theorem validateFields_noReq (fields : List GField) (inst : List (String × GVal))
    (h : noReqDeep fields = true) : validateFields fields inst = none := by
  cases fields with
  | nil => simp [validateFields]
  | cons f rest =>
      rw [noReqDeep] at h
      simp only [Bool.and_eq_true] at h
      obtain ⟨h1, h2⟩ := h
      rw [validateFields]
      rw [validateOne_noReq f _ h1]
      exact validateFields_noReq rest inst h2
termination_by structural fields

theorem validateOne_noReq (f : GField) (v : GVal) (h : noReqField f = true) :
    validateOne f v = none := by
  obtain ⟨fname, ftags, fty, fexp⟩ := f
  cases fty with
  | strc sn sub =>
      simp only [noReqField, Bool.and_eq_true] at h
      obtain ⟨h1, h2⟩ := h
      have hv : strContains (tagGet (GField.mk fname ftags (.strc sn sub) fexp) "validate") "required" = false :=
        validate_tag_free (by simpa using h1)
      cases v with
      | vstruct vs =>
          rw [validateOne]
          simp only [hv, Bool.false_and, Bool.false_eq_true, if_false]
          exact validateFields_noReq sub vs h2
      | vstr s => simp [validateOne, hv]
      | vint n => simp [validateOne, hv]
      | vuint n => simp [validateOne, hv]
      | vfloat s => simp [validateOne, hv]
      | vbool b => simp [validateOne, hv]
      | vslice vs => simp [validateOne, hv]
      | vnil => simp [validateOne, hv]
  | str =>
      simp only [noReqField, Bool.and_eq_true] at h
      exact by simp [validateOne, validate_tag_free (by simpa using h.1)]
  | i w =>
      simp only [noReqField, Bool.and_eq_true] at h
      exact by simp [validateOne, validate_tag_free (by simpa using h.1)]
  | u w =>
      simp only [noReqField, Bool.and_eq_true] at h
      exact by simp [validateOne, validate_tag_free (by simpa using h.1)]
  | fl =>
      simp only [noReqField, Bool.and_eq_true] at h
      exact by simp [validateOne, validate_tag_free (by simpa using h.1)]
  | bo =>
      simp only [noReqField, Bool.and_eq_true] at h
      exact by simp [validateOne, validate_tag_free (by simpa using h.1)]
  | slice e =>
      simp only [noReqField, Bool.and_eq_true] at h
      exact by simp [validateOne, validate_tag_free (by simpa using h.1)]
  | ptr e =>
      simp only [noReqField, Bool.and_eq_true] at h
      exact by simp [validateOne, validate_tag_free (by simpa using h.1)]
  | other =>
      simp only [noReqField, Bool.and_eq_true] at h
      exact by simp [validateOne, validate_tag_free (by simpa using h.1)]
termination_by structural f
end


theorem noReqField_isRequired {f : GField} (h : noReqField f = true) :
    isRequired f = false := by
  obtain ⟨fname, ftags, fty, fexp⟩ := f
  cases fty <;> (simp only [noReqField, Bool.and_eq_true] at h; simpa using h.1)

theorem noReqDeep_hasRequired {fields : List GField} (h : noReqDeep fields = true) :
    hasRequiredFieldsL fields = false := by
  induction fields with
  | nil => simp [hasRequiredFieldsL]
  | cons f rest ih =>
      rw [noReqDeep] at h
      simp only [Bool.and_eq_true] at h
      obtain ⟨h1, h2⟩ := h
      simp only [hasRequiredFieldsL, List.any_cons, Bool.or_eq_false_iff]
      exact ⟨noReqField_isRequired h1, by simpa [hasRequiredFieldsL] using ih h2⟩

theorem parseSchema_ok_split {r : Request} {fields : List GField}
    {inst : List (String × GVal)} (h : parseSchema r fields = .ok inst) :
    parseSchemaFields r fields = .ok inst ∧ validateFields fields inst = none := by
  unfold parseSchema at h
  rcases hp : parseSchemaFields r fields with e | inst'
  · rw [hp] at h
    exact absurd h (by simp)
  · rw [hp] at h
    dsimp only at h
    rcases hv : validateFields fields inst' with _ | e
    · rw [hv] at h
      simp only [Except.ok.injEq] at h
      subst h
      exact ⟨rfl, hv⟩
    · rw [hv] at h
      exact absurd h (by simp)


/-- C4: for the schema with required string `Params.ID` and integer
`Query.Limit` defaulting to 10 and no Body, a request with path parameter
`id = "42"` and an empty query string parses without error into the instance
`{ID: "42", Limit: 10}` — the default fills the absent query field. -/
theorem C4_params_default_scenario :
    parseSchema req4 itemSchemaFields =
      .ok [("Params", .vstruct [("ID", .vstr "42")]),
           ("Query", .vstruct [("Limit", .vint 10)])] := by
  rfl

/-- C5: for the same schema, a request whose query carries `limit=abc` fails
in the conversion of field `Limit`, and the boundary mapping surfaces the
failure with code `ERR_INVALID_QUERY`. -/
theorem C5_invalid_query_scenario :
    parseSchema req5 itemSchemaFields = .error msg5 ∧
    convertToErrorResult (.err msg5) =
      NotOk "ERR_INVALID_QUERY" ("invalid query param " ++ sq ++ "limit" ++ sq ++
        ": strconv.ParseInt: parsing \"abc\": invalid syntax") := by
  exact ⟨by rfl, by rfl⟩

/-- C7: generating the document schema for the named record `SearchResponse`
with an anonymous nested record field `Page` stores a node named
`SearchResponsePage` distinct from the node named `SearchResponse`. -/
theorem C7_search_response_page :
    (genType SearchResponseTy GenSt.empty).1.table.lookup "SearchResponsePage" = some nodePage ∧
    (genType SearchResponseTy GenSt.empty).1.table.lookup "SearchResponse" = some nodeSearchResponse ∧
    nodePage ≠ nodeSearchResponse := by
  refine ⟨by rfl, by rfl, fun h => ?_⟩
  have hp := congrArg JSchema.propNames h
  rw [show nodePage.propNames = ["number", "size"] from rfl,
      show nodeSearchResponse.propNames = ["results", "page"] from rfl] at hp
  exact absurd hp (by decide)

/-- C10: for signed and unsigned integer fields narrower than 64 bits, the
raw literal is parsed at 64-bit width and the store truncates: the stored
value is the parsed value reduced modulo `2^w` (in two's complement for the
signed kinds), with no conversion error for literals outside the field
range. -/
theorem C10_narrow_int_truncation :
    (∀ (w : Nat) (s : String) (n : Int), (w = 8 ∨ w = 16 ∨ w = 32) →
        goParseInt64 s = .ok n →
        setFieldValue (.i w) s =
          .ok (.vint ((n + 2 ^ (w - 1)) % (2 ^ w : Nat) - 2 ^ (w - 1)))) ∧
    (∀ (w : Nat) (s : String) (n : Nat), (w = 8 ∨ w = 16 ∨ w = 32) →
        goParseUint64 s = .ok n →
        setFieldValue (.u w) s = .ok (.vuint (n % 2 ^ w))) := by
  constructor
  · intro w s n _ hp
    simp [setFieldValue, hp, wrapSigned]
  · intro w s n _ hp
    simp [setFieldValue, hp, wrapUnsigned]

/-- Witness for C10: the out-of-range literal `"300"` is accepted for an
8-bit field and stored as `44 = 300 mod 256`. -/
theorem C10_narrow_int_truncation_witness :
    (8 = 8 ∨ 8 = 16 ∨ 8 = 32) ∧ goParseInt64 "300" = .ok 300 ∧
    setFieldValue (.i 8) "300" = .ok (.vint 44) ∧
    goParseUint64 "300" = .ok 300 ∧
    setFieldValue (.u 8) "300" = .ok (.vuint 44) := by
  refine ⟨Or.inl rfl, by rfl, ?_, by rfl, ?_⟩
  · rw [C10_narrow_int_truncation.1 8 "300" 300 (Or.inl rfl) (by rfl)]
    norm_num
  · rw [C10_narrow_int_truncation.2 8 "300" 300 (Or.inl rfl) (by rfl)]
    norm_num

/-- C1 counterexample: a Multi scheme composed of a component that is itself
a Multi scheme rejects a request that the component scheme validates — the
type switch in `tryScheme` treats every non-API-key, non-bearer component as
failing, so composed admission is not equivalent to "some component
validates". -/
theorem C1_counterexample :
    schemeAdmits kA reqKey = true ∧
    schemeAdmits innerM reqKey = true ∧
    schemeAdmits outerM reqKey = false := by
  exact ⟨by rfl, by rfl, by rfl⟩

/-- C2 counterexample: a required query field with no value and no default
produces a structured missing-required error, but the boundary mapping
surfaces it as `ERR_INVALID_QUERY` — the location prefix of the wrapped
message matches before the `ERR_MISSING_REQUIRED` case can. -/
theorem C2_counterexample :
    parseSchema emptyReq reqLimitSchemaFields = .error msg2 ∧
    convertToErrorResult (.err msg2) =
      NotOk "ERR_INVALID_QUERY"
        ("required query param " ++ sq ++ "Limit" ++ sq ++ " is missing") ∧
    (convertToErrorResult (.err msg2)).code ≠ "ERR_MISSING_REQUIRED" := by
  refine ⟨by rfl, by rfl, ?_⟩
  rw [show (convertToErrorResult (.err msg2)).code = "ERR_INVALID_QUERY" from rfl]
  decide

/-- C3 counterexample: generating the document schema for type `A` — whose
anonymous field `B` resolves to the context name `AB` while containing the
named type `AB` — writes the name `AB` twice with two different nodes; the
node stored first is overwritten, and the final table binds `AB` to the
later node. -/
theorem C3_counterexample :
    (genType Aty GenSt.empty).1.log = [("AB", nodeAB1), ("AB", nodeAB2), ("A", nodeA)] ∧
    (genType Aty GenSt.empty).1.table.lookup "AB" = some nodeAB2 ∧
    nodeAB1 ≠ nodeAB2 := by
  refine ⟨by rfl, by rfl, fun h => ?_⟩
  have hp := congrArg JSchema.propNames h
  rw [show nodeAB1.propNames = ["x"] from rfl,
      show nodeAB2.propNames = ["inner"] from rfl] at hp
  exact absurd hp (by decide)

/-- C6 counterexample: for the named record `S` whose field `Tags` is a
sequence of anonymous records, the element node is stored under the name
`Item`, not under the parent-plus-field name `STagsItem`. -/
theorem C6_counterexample :
    ((genType Sty GenSt.empty).1.table.map Prod.fst) = ["Item", "S"] ∧
    (genType Sty GenSt.empty).1.table.lookup "STagsItem" = none ∧
    ((genType Sty GenSt.empty).1.table.lookup "Item").isSome = true := by
  exact ⟨by rfl, by rfl, by rfl⟩


theorem tryScheme_eq_admits {s : SecScheme} (r : Request)
    (h : isSimpleScheme s = true) : tryScheme s r = schemeAdmits s r := by
  cases s with
  | apiKey a b c d e => rfl
  | bearer a b c d => rfl
  | multi a b => simp [isSimpleScheme] at h

theorem any_tryScheme_eq (comps : List SecScheme) (r : Request)
    (h : ∀ s ∈ comps, isSimpleScheme s = true) :
    (comps.any fun s => tryScheme s r) = comps.any fun s => schemeAdmits s r := by
  induction comps with
  | nil => rfl
  | cons s rest ih =>
      rw [List.any_cons, List.any_cons]
      rw [tryScheme_eq_admits r (h s (List.mem_cons_self s rest))]
      rw [ih fun x hx => h x (List.mem_cons_of_mem s hx)]

/-- C1 amended: a Multi scheme whose components are all API-key or bearer
schemes admits a request exactly when some component's own middleware admits
it (components of any other kind are treated as always failing); document
generation expands a Multi into one single-scheme security requirement per
component, in order, and every requirement entry it ever emits names exactly
one scheme. -/
theorem C1_multi_or_amended :
    (∀ (mname : String) (comps : List SecScheme) (r : Request),
        (∀ s ∈ comps, isSimpleScheme s = true) →
        schemeAdmits (.multi mname comps) r = comps.any fun s => schemeAdmits s r) ∧
    (∀ (mname : String) (comps : List SecScheme) (tbl : SecTable),
        (generateOperationSecurity [.multi mname comps] tbl).2 =
          comps.map fun c => [((getSecurityScheme c).1, [])]) ∧
    (∀ (schemes : List SecScheme) (tbl : SecTable) (req : SecReq),
        req ∈ (generateOperationSecurity schemes tbl).2 → req.length = 1) := by
  refine ⟨?_, ?_, ?_⟩
  · intro mname comps r h
    rw [show schemeAdmits (.multi mname comps) r = comps.any fun s => tryScheme s r from rfl]
    exact any_tryScheme_eq comps r h
  · intro mname comps tbl
    simp [generateOperationSecurity]
  · intro schemes
    induction schemes with
    | nil => intro tbl req hmem; simp [generateOperationSecurity] at hmem
    | cons s rest ih =>
        intro tbl req hmem
        cases s with
        | apiKey a b c d e =>
            simp only [generateOperationSecurity] at hmem
            rcases List.mem_append.mp hmem with hl | hr
            · simp only [List.mem_singleton] at hl
              subst hl
              rfl
            · exact ih _ req hr
        | bearer a b c d =>
            simp only [generateOperationSecurity] at hmem
            rcases List.mem_append.mp hmem with hl | hr
            · simp only [List.mem_singleton] at hl
              subst hl
              rfl
            · exact ih _ req hr
        | multi a comps =>
            simp only [generateOperationSecurity] at hmem
            rcases List.mem_append.mp hmem with hl | hr
            · obtain ⟨c, _, rfl⟩ := List.mem_map.mp hl
              rfl
            · exact ih _ req hr

/-- Witness for C1 amended: a Multi of the API-key and bearer schemes admits
the bearer request exactly as the component disjunction does, its document
expansion yields one singleton requirement per component, and a generated
requirement entry names exactly one scheme. -/
theorem C1_multi_or_amended_witness :
    schemeAdmits (.multi "M" [kA, bA]) reqTok = ([kA, bA].any fun s => schemeAdmits s reqTok) ∧
    (generateOperationSecurity [.multi "M" [kA, bA]] ([] : SecTable)).2 =
      ([kA, bA].map fun c => [((getSecurityScheme c).1, [])]) ∧
    ([("ApiKeyAuth", ([] : List String))] : SecReq).length = 1 := by
  refine ⟨C1_multi_or_amended.1 "M" [kA, bA] reqTok ?_,
    C1_multi_or_amended.2.1 "M" [kA, bA] [],
    C1_multi_or_amended.2.2 [.multi "M" [kA, bA]] [] [("ApiKeyAuth", [])] ?_⟩
  · intro s hs
    simp only [List.mem_cons, List.not_mem_nil, or_false] at hs
    rcases hs with rfl | rfl
    · rfl
    · rfl
  · rw [show (generateOperationSecurity [.multi "M" [kA, bA]] ([] : SecTable)).2 =
        [[("ApiKeyAuth", [])], [("BearerAuth", [])]] from rfl]
    simp


theorem append_item_ne_empty (c : String) : c ++ "Item" ≠ "" := by
  intro h
  have hd := congrArg String.data h
  rw [String.data_append] at hd
  simp at hd

theorem resolveSchemaName_item (c : String) :
    resolveSchemaName "" (c ++ "Item") = c ++ "Item" := by
  unfold resolveSchemaName
  rw [if_neg (by simp), if_pos (append_item_ne_empty c)]

/-- C3 amended: a schema-table entry that exists when a generation call
starts is never overwritten by that call, and a record type resolving to a
name already present yields a `$ref` with the table untouched; but the
reuse check happens only at call entry while the store happens
unconditionally at call exit, so a same-name generation nested inside a
pending one stores first and is overwritten when the pending call
completes. -/
theorem C3_write_once_amended :
    (∀ (t : GType) (st : GenSt) (c name : String) (n : JSchema),
        st.table.lookup name = some n →
        ((genTypeCtx t st c).1).table.lookup name = some n) ∧
    (∀ (tname : String) (fields : List GField) (st : GenSt) (c : String),
        (st.table.lookup (resolveSchemaName tname c)).isSome = true →
        genTypeCtx (.strc tname fields) st c =
          (st, refSchema (resolveSchemaName tname c))) := by
  refine ⟨fun t st c name n h => genTypeCtx_mono t st c name n h, ?_⟩
  intro tname fields st c hmem
  rw [genTypeCtx]
  rw [if_pos hmem]

/-- Witness for C3 amended: an entry pre-seeded under `Z` survives the whole
generation of `A`, and a second generation of the named type `AB` against a
table already holding `AB` returns a `$ref` with the table unchanged. -/
theorem C3_write_once_amended_witness :
    ((genTypeCtx Aty ⟨[("Z", strNode)], []⟩ "").1).table.lookup "Z" = some strNode ∧
    genTypeCtx ABty ⟨[("AB", nodeAB1)], []⟩ "" =
      (⟨[("AB", nodeAB1)], []⟩, refSchema "AB") := by
  constructor
  · exact C3_write_once_amended.1 Aty ⟨[("Z", strNode)], []⟩ "" "Z" strNode (by rfl)
  · exact C3_write_once_amended.2 "AB" [.mk "X" [] (.i 64) true] ⟨[("AB", nodeAB1)], []⟩ "" (by rfl)

/-- C6 amended: only a field whose type is literally an anonymous record
receives the parent-plus-capitalized-field context name; a sequence-typed
field receives the empty context, and the element of a sequence of
anonymous records is generated under the sequence context plus `Item` — so
for a sequence field of a named parent the element node is named just
`Item`, as the concrete `S` table shows. -/
theorem C6_item_naming_amended :
    (∀ (schemaName contextName fname : String) (tags : List (String × String))
        (e : Bool) (ety : GType),
        fieldContextName schemaName contextName (.mk fname tags (.slice ety) e) = "") ∧
    (∀ (st : GenSt) (efl : List GField) (c : String),
        (genTypeCtx (.slice (.strc "" efl)) st c).2 =
          (newJSONSchema "array" []).withItems (refSchema (c ++ "Item"))) ∧
    ((genType Sty GenSt.empty).1.table.lookup "Item").isSome = true := by
  refine ⟨fun _ _ _ _ _ _ => rfl, ?_, by rfl⟩
  intro st efl c
  rw [genTypeCtx]
  rcases hgen : genTypeCtx (.strc "" efl) st (c ++ "Item") with ⟨st', items⟩
  have hi : items = refSchema (c ++ "Item") := by
    rw [genTypeCtx] at hgen
    rw [resolveSchemaName_item] at hgen
    by_cases hmem : (st.table.lookup (c ++ "Item")).isSome
    · rw [if_pos hmem] at hgen
      exact (Prod.mk.injEq _ _ _ _).mp hgen |>.2.symm
    · rw [if_neg hmem] at hgen
      exact (Prod.mk.injEq _ _ _ _).mp hgen |>.2.symm
  simp [hgen, hi]


mutual
theorem noValidationDeep_noReq (fields : List GField)
    (h : noValidationDeep fields = true) : noReqDeep fields = true := by
  cases fields with
  | nil => rfl
  | cons f rest =>
      rw [noValidationDeep] at h
      simp only [Bool.and_eq_true] at h
      rw [noReqDeep]
      simp only [Bool.and_eq_true]
      exact ⟨noValidationField_noReq f h.1, noValidationDeep_noReq rest h.2⟩
termination_by structural fields

theorem noValidationField_noReq (f : GField)
    (h : noValidationField f = true) : noReqField f = true := by
  obtain ⟨fn, tg, ty, ex⟩ := f
  cases ty with
  | strc sn sub =>
      rw [noValidationField] at h
      simp only [Bool.and_eq_true] at h
      obtain ⟨⟨ha, _⟩, hc⟩ := h
      rw [noReqField]
      simp only [Bool.and_eq_true]
      exact ⟨ha, noValidationDeep_noReq sub hc⟩
  | str =>
      simp only [noValidationField, noReqField, Bool.and_eq_true, Bool.and_true,
        and_true] at h ⊢
      exact h.1
  | i w =>
      simp only [noValidationField, noReqField, Bool.and_eq_true, Bool.and_true,
        and_true] at h ⊢
      exact h.1
  | u w =>
      simp only [noValidationField, noReqField, Bool.and_eq_true, Bool.and_true,
        and_true] at h ⊢
      exact h.1
  | fl =>
      simp only [noValidationField, noReqField, Bool.and_eq_true, Bool.and_true,
        and_true] at h ⊢
      exact h.1
  | bo =>
      simp only [noValidationField, noReqField, Bool.and_eq_true, Bool.and_true,
        and_true] at h ⊢
      exact h.1
  | slice e =>
      simp only [noValidationField, noReqField, Bool.and_eq_true, Bool.and_true,
        and_true] at h ⊢
      exact h.1
  | ptr e =>
      simp only [noValidationField, noReqField, Bool.and_eq_true, Bool.and_true,
        and_true] at h ⊢
      exact h.1
  | other =>
      simp only [noValidationField, noReqField, Bool.and_eq_true, Bool.and_true,
        and_true] at h ⊢
      exact h.1
termination_by structural f
end

/-- C8: with an empty body (zero content length), `parseBody` succeeds and
skips decoding — leaving the Body sub-record at its zero value — exactly
when no Body field is marked required, and errors with "request body is
required" when some field is. At the whole-parse level: a schema whose Body
sub-record carries no validation rule at all — empty `validate` tags and no
required markers, recursively — parses an empty request to the zero Body (the
validator pass has nothing to enforce, whatever rules the `validate` tag
could drive), and a Body with a required field makes the whole parse error. -/
theorem C8_empty_body :
    (∀ (bt : GType) (bfields : List GField) (r : Request), r.contentLength = 0 →
        hasRequiredFieldsL bfields = false →
        parseBodyV r bt bfields = .ok (zeroVal bt)) ∧
    (∀ (bt : GType) (bfields : List GField) (r : Request), r.contentLength = 0 →
        hasRequiredFieldsL bfields = true →
        parseBodyV r bt bfields = .error "request body is required") ∧
    (∀ (bname : String) (bfields : List GField) (r : Request), r.contentLength = 0 →
        noValidationDeep bfields = true →
        parseSchema r [.mk "Body" [] (.strc bname bfields) true] =
          .ok [("Body", zeroVal (.strc bname bfields))]) ∧
    (∀ (bname : String) (bfields : List GField) (r : Request), r.contentLength = 0 →
        hasRequiredFieldsL bfields = true →
        parseSchema r [.mk "Body" [] (.strc bname bfields) true] =
          .error ("body validation failed: request body is required")) := by
  have hbodyOk : ∀ (bt : GType) (bfields : List GField) (r : Request),
      r.contentLength = 0 → hasRequiredFieldsL bfields = false →
      parseBodyV r bt bfields = .ok (zeroVal bt) := by
    intro bt bfields r h1 h2
    simp [parseBodyV, h1, h2]
  have hbodyErr : ∀ (bt : GType) (bfields : List GField) (r : Request),
      r.contentLength = 0 → hasRequiredFieldsL bfields = true →
      parseBodyV r bt bfields = .error "request body is required" := by
    intro bt bfields r h1 h2
    simp [parseBodyV, h1, h2]
  refine ⟨hbodyOk, hbodyErr, ?_, ?_⟩
  · intro bname bfields r h1 h2
    have hnr : noReqDeep bfields = true := noValidationDeep_noReq bfields h2
    have htop : parseTopField r (.mk "Body" [] (.strc bname bfields) true) =
        (match parseBodyV r (.strc bname bfields) bfields with
         | .error e => .error ("body validation failed: " ++ e)
         | .ok v => .ok v) := rfl
    rw [hbodyOk (.strc bname bfields) bfields r h1 (noReqDeep_hasRequired hnr)] at htop
    have hfirst : parseSchemaFields r [.mk "Body" [] (.strc bname bfields) true] =
        .ok [("Body", zeroVal (.strc bname bfields))] := by
      rw [parseSchemaFields, htop]
      rfl
    have hnotreq : isRequired (GField.mk "Body" [] (.strc bname bfields) true) = false := by
      rfl
    have hnrAll : noReqDeep [GField.mk "Body" [] (.strc bname bfields) true] = true := by
      rw [noReqDeep, noReqField]
      simp [hnotreq, hnr, noReqDeep]
    unfold parseSchema
    rw [hfirst]
    dsimp only
    rw [validateFields_noReq _ _ hnrAll]
  · intro bname bfields r h1 h2
    have htop : parseTopField r (.mk "Body" [] (.strc bname bfields) true) =
        (match parseBodyV r (.strc bname bfields) bfields with
         | .error e => .error ("body validation failed: " ++ e)
         | .ok v => .ok v) := rfl
    rw [hbodyErr (.strc bname bfields) bfields r h1 h2] at htop
    unfold parseSchema
    rw [parseSchemaFields, htop]
    rfl

/-- Witness for C8: a Body of one optional string field parses an empty
request to the zero instance, and a Body with a required field rejects it. -/
theorem C8_empty_body_witness :
    parseBodyV emptyReq (.strc "" [.mk "Note" [] .str true]) [.mk "Note" [] .str true] =
      .ok (.vstruct [("Note", .vstr "")]) ∧
    parseSchema emptyReq [.mk "Body" [] (.strc "" [.mk "Note" [] .str true]) true] =
      .ok [("Body", .vstruct [("Note", .vstr "")])] ∧
    parseSchema emptyReq
        [.mk "Body" [] (.strc "" [.mk "Title" [("validate", "required")] .str true]) true] =
      .error ("body validation failed: request body is required") := by
  refine ⟨?_, ?_, ?_⟩
  · exact C8_empty_body.1 (.strc "" [.mk "Note" [] .str true]) [.mk "Note" [] .str true]
      emptyReq (by rfl) (by rfl)
  · exact C8_empty_body.2.2.1 "" [.mk "Note" [] .str true] emptyReq (by rfl) (by rfl)
  · exact C8_empty_body.2.2.2 "" [.mk "Title" [("validate", "required")] .str true]
      emptyReq (by rfl) (by rfl)


theorem parseTopField_other {r : Request} {f : GField}
    (h1 : strLower f.name ≠ "params") (h2 : strLower f.name ≠ "query")
    (h3 : strLower f.name ≠ "body") :
    parseTopField r f = .ok (zeroVal f.ty) := by
  unfold parseTopField
  by_cases he : (!f.exported) = true
  · rw [if_pos he]
  · rw [if_neg he, if_neg h1, if_neg h2, if_neg h3]

theorem parseSchemaFields_frame :
    ∀ (fields : List GField) (r : Request) (inst : List (String × GVal)),
      parseSchemaFields r fields = .ok inst →
      List.Forall₂ (fun (f : GField) (p : String × GVal) =>
        p.1 = f.name ∧
        (strLower f.name ≠ "params" → strLower f.name ≠ "query" →
          strLower f.name ≠ "body" → p.2 = zeroVal f.ty)) fields inst := by
  intro fields
  induction fields with
  | nil =>
      intro r inst h
      rw [parseSchemaFields] at h
      simp only [Except.ok.injEq] at h
      subst h
      exact List.Forall₂.nil
  | cons f rest ih =>
      intro r inst h
      rw [parseSchemaFields] at h
      rcases ht : parseTopField r f with e | v
      · rw [ht] at h
        exact absurd h (by simp)
      · rw [ht] at h
        dsimp only at h
        rcases hr : parseSchemaFields r rest with e | vs
        · rw [hr] at h
          exact absurd h (by simp)
        · rw [hr] at h
          dsimp only at h
          simp only [Except.ok.injEq] at h
          subst h
          refine List.Forall₂.cons ⟨rfl, fun hn1 hn2 hn3 => ?_⟩ (ih r vs hr)
          rw [parseTopField_other hn1 hn2 hn3] at ht
          simp only [Except.ok.injEq] at ht
          exact ht.symm

/-- C9: the parser assigns only the sub-records literally named Params,
Query or Body (case-insensitive): in every successfully parsed instance,
any other top-level field — including every primitive top-level field, which
`isQueryParameter` auto-detects and the document generator advertises as a
query parameter — still holds its zero value. -/
theorem C9_unrecognized_fields_frame :
    (∀ (r : Request) (fields : List GField) (inst : List (String × GVal)),
        parseSchema r fields = .ok inst →
        List.Forall₂ (fun (f : GField) (p : String × GVal) =>
          p.1 = f.name ∧
          (strLower f.name ≠ "params" → strLower f.name ≠ "query" →
            strLower f.name ≠ "body" → p.2 = zeroVal f.ty)) fields inst) ∧
    (∀ f : GField, isPrimKind f.ty = true → isQueryParameter f = true) := by
  constructor
  · intro r fields inst h
    exact parseSchemaFields_frame fields r inst (parseSchema_ok_split h).1
  · intro f h
    obtain ⟨fname, ftags, fty, fexp⟩ := f
    cases fty with
    | str => rfl
    | i w => rfl
    | u w => rfl
    | fl => rfl
    | bo => rfl
    | slice e => simp [isPrimKind, GField.ty] at h
    | ptr e => simp [isPrimKind, GField.ty] at h
    | strc sn fs => simp [isPrimKind, GField.ty] at h
    | other => simp [isPrimKind, GField.ty] at h

/-- Witness for C9: the advertised-but-unrecognized top-level field `Extra`
stays zero even when the request supplies `extra=5` and `Extra=5`. -/
theorem C9_unrecognized_fields_frame_witness :
    List.Forall₂ (fun (f : GField) (p : String × GVal) =>
        p.1 = f.name ∧
        (strLower f.name ≠ "params" → strLower f.name ≠ "query" →
          strLower f.name ≠ "body" → p.2 = zeroVal f.ty)) extraSchemaFields
      [("Query", .vstruct [("Limit", .vint 10)]), ("Extra", .vint 0)] ∧
    isQueryParameter extraField = true := by
  exact ⟨C9_unrecognized_fields_frame.1 reqExtra extraSchemaFields
    [("Query", .vstruct [("Limit", .vint 10)]), ("Extra", .vint 0)] (by rfl),
    C9_unrecognized_fields_frame.2 extraField (by rfl)⟩



end X

namespace X

theorem parseParamField_missing {f : GField} (r : Request)
    (h1 : f.exported = true) (h2 : isRequired f = true)
    (h3 : r.param (paramNameOf f) = "") :
    parseParamField r f = .error (missingParamFieldMsg (paramNameOf f)) := by
  unfold parseParamField paramNameOf missingParamFieldMsg at *
  simp only [h1, Bool.not_true, Bool.false_eq_true, if_false, h3, h2, if_pos, ite_true,
    if_true, reduceIte]

theorem parseQueryField_missing {f : GField} (r : Request)
    (h1 : f.exported = true) (h2 : isRequired f = true)
    (h3 : getTagValue f "default" = "")
    (h4 : r.q (queryNameOf f) = "") (h5 : r.q f.name = "")
    (h6 : r.q (strLower f.name) = "") :
    parseQueryField r f = .error (missingQueryFieldMsg (queryNameOf f)) := by
  unfold parseQueryField queryNameOf missingQueryFieldMsg at *
  simp only [h1, Bool.not_true, Bool.false_eq_true, if_false, h4, h5, h6, h3, h2,
    ite_self, ne_eq, not_true_eq_false, if_neg, ite_true, ite_false, if_pos,
    not_false_eq_true]

end X

namespace X

theorem parseQueryL_append_error :
    ∀ (pre : List GField) (r : Request) (vs : List (String × GVal)) (f : GField)
      (post : List GField) (e : String),
      parseQueryL r pre = .ok vs → parseQueryField r f = .error e →
      parseQueryL r (pre ++ f :: post) = .error e := by
  intro pre
  induction pre with
  | nil =>
      intro r vs f post e _ herr
      rw [List.nil_append, parseQueryL, herr]
  | cons g rest ih =>
      intro r vs f post e hok herr
      rw [parseQueryL] at hok
      rw [List.cons_append, parseQueryL]
      rcases hg : parseQueryField r g with e₁ | v₁
      · rw [hg] at hok
        exact absurd hok (by simp)
      · rw [hg] at hok
        dsimp only at hok ⊢
        rcases hr : parseQueryL r rest with e₂ | vs₂
        · rw [hr] at hok
          exact absurd hok (by simp)
        · rw [ih r vs₂ f post e hr herr]

theorem parseParamsL_append_error :
    ∀ (pre : List GField) (r : Request) (vs : List (String × GVal)) (f : GField)
      (post : List GField) (e : String),
      parseParamsL r pre = .ok vs → parseParamField r f = .error e →
      parseParamsL r (pre ++ f :: post) = .error e := by
  intro pre
  induction pre with
  | nil =>
      intro r vs f post e _ herr
      rw [List.nil_append, parseParamsL, herr]
  | cons g rest ih =>
      intro r vs f post e hok herr
      rw [parseParamsL] at hok
      rw [List.cons_append, parseParamsL]
      rcases hg : parseParamField r g with e₁ | v₁
      · rw [hg] at hok
        exact absurd hok (by simp)
      · rw [hg] at hok
        dsimp only at hok ⊢
        rcases hr : parseParamsL r rest with e₂ | vs₂
        · rw [hr] at hok
          exact absurd hok (by simp)
        · rw [ih r vs₂ f post e hr herr]

theorem parseSchema_query_error {r : Request} {fl : List GField} {e : String}
    (h : parseQueryL r fl = .error e) :
    parseSchema r [.mk "Query" [] (.strc "" fl) true] =
      .error ("query validation failed: " ++ e) := by
  have hsk : parseTopField r (.mk "Query" [] (.strc "" fl) true) =
      (match parseQueryL r fl with
       | .error e => .error ("query validation failed: " ++ e)
       | .ok vs => .ok (.vstruct vs)) := rfl
  rw [h] at hsk
  unfold parseSchema
  rw [parseSchemaFields, hsk]

theorem parseSchema_params_error {r : Request} {fl : List GField} {e : String}
    (h : parseParamsL r fl = .error e) :
    parseSchema r [.mk "Params" [] (.strc "" fl) true] =
      .error ("params validation failed: " ++ e) := by
  have hsk : parseTopField r (.mk "Params" [] (.strc "" fl) true) =
      (match parseParamsL r fl with
       | .error e => .error ("params validation failed: " ++ e)
       | .ok vs => .ok (.vstruct vs)) := rfl
  rw [h] at hsk
  unfold parseSchema
  rw [parseSchemaFields, hsk]

end X

namespace X

theorem code_of_contains_params {e : String}
    (hc : strContains e "params validation failed" = true) :
    (convertToErrorResult (.err e)).code = "ERR_INVALID_PARAMS" := by
  unfold convertToErrorResult
  simp only [hc, if_true, ite_true]
  rfl

theorem code_of_contains_query {e : String}
    (hp : strContains e "params validation failed" = false)
    (hc : strContains e "query validation failed" = true) :
    (convertToErrorResult (.err e)).code = "ERR_INVALID_QUERY" := by
  unfold convertToErrorResult
  simp only [hp, hc, Bool.false_eq_true, if_false, if_true, ite_true, ite_false]
  rfl

theorem code_of_contains_body {e : String}
    (hp : strContains e "params validation failed" = false)
    (hq : strContains e "query validation failed" = false)
    (hc : strContains e "body validation failed" = true) :
    (convertToErrorResult (.err e)).code = "ERR_INVALID_BODY" := by
  unfold convertToErrorResult
  simp only [hp, hq, hc, Bool.false_eq_true, if_false, if_true, ite_true, ite_false]
  rfl

theorem code_of_contains_validation {e : String}
    (hp : strContains e "params validation failed" = false)
    (hq : strContains e "query validation failed" = false)
    (hb : strContains e "body validation failed" = false)
    (hc : strContains e "validation failed" = true) :
    (convertToErrorResult (.err e)).code = "ERR_VALIDATION_FAILED" := by
  unfold convertToErrorResult
  simp only [hp, hq, hb, hc, Bool.false_eq_true, if_false, if_true, ite_true, ite_false]
  rfl

end X

namespace X

theorem parseTopField_error_shape {r : Request} {f : GField} {e : String}
    (h : parseTopField r f = .error e) :
    (∃ m, e = "params validation failed: " ++ m) ∨
    (∃ m, e = "query validation failed: " ++ m) ∨
    (∃ m, e = "body validation failed: " ++ m) ∨
    e = numFieldPanicMsg := by
  unfold parseTopField at h
  repeat' split at h
  all_goals simp at h
  all_goals first
    | exact Or.inl ⟨_, h.symm⟩
    | exact Or.inr (Or.inl ⟨_, h.symm⟩)
    | exact Or.inr (Or.inr (Or.inl ⟨_, h.symm⟩))
    | exact Or.inr (Or.inr (Or.inr h.symm))

theorem parseSchemaFields_error_shape :
    ∀ (fields : List GField) (r : Request) (e : String),
      parseSchemaFields r fields = .error e →
      (∃ m, e = "params validation failed: " ++ m) ∨
      (∃ m, e = "query validation failed: " ++ m) ∨
      (∃ m, e = "body validation failed: " ++ m) ∨
      e = numFieldPanicMsg := by
  intro fields
  induction fields with
  | nil =>
      intro r e h
      rw [parseSchemaFields] at h
      exact absurd h (by simp)
  | cons f rest ih =>
      intro r e h
      rw [parseSchemaFields] at h
      rcases ht : parseTopField r f with m | v
      · rw [ht] at h
        dsimp only at h
        simp only [Except.error.injEq] at h
        exact h ▸ parseTopField_error_shape ht
      · rw [ht] at h
        dsimp only at h
        rcases hr : parseSchemaFields r rest with m | vs
        · rw [hr] at h
          dsimp only at h
          simp only [Except.error.injEq] at h
          exact h ▸ ih r m hr
        · rw [hr] at h
          exact absurd h (by simp)

theorem parseSchema_error_shape {r : Request} {fields : List GField} {e : String}
    (h : parseSchema r fields = .error e) :
    ((∃ m, e = "params validation failed: " ++ m) ∨
     (∃ m, e = "query validation failed: " ++ m) ∨
     (∃ m, e = "body validation failed: " ++ m) ∨
     e = numFieldPanicMsg) ∨
    (∃ m, e = "validation failed: " ++ m) := by
  unfold parseSchema at h
  rcases hp : parseSchemaFields r fields with m | inst
  · rw [hp] at h
    dsimp only at h
    simp only [Except.error.injEq] at h
    exact Or.inl (h ▸ parseSchemaFields_error_shape fields r m hp)
  · rw [hp] at h
    dsimp only at h
    rcases hv : validateFields fields inst with _ | m
    · rw [hv] at h
      exact absurd h (by simp)
    · rw [hv] at h
      dsimp only at h
      simp only [Except.error.injEq] at h
      exact Or.inr ⟨m, h.symm⟩

end X

namespace X

theorem convert_never_missing_of_contains {e : String}
    (hv : strContains e "validation failed" = true) :
    (convertToErrorResult (.err e)).code ≠ "ERR_MISSING_REQUIRED" := by
  by_cases hp : strContains e "params validation failed" = true
  · rw [code_of_contains_params hp]
    decide
  · have hp2 : strContains e "params validation failed" = false :=
      Bool.eq_false_iff.mpr hp
    by_cases hq : strContains e "query validation failed" = true
    · rw [code_of_contains_query hp2 hq]
      decide
    · have hq2 : strContains e "query validation failed" = false :=
        Bool.eq_false_iff.mpr hq
      by_cases hb : strContains e "body validation failed" = true
      · rw [code_of_contains_body hp2 hq2 hb]
        decide
      · have hb2 : strContains e "body validation failed" = false :=
          Bool.eq_false_iff.mpr hb
        rw [code_of_contains_validation hp2 hq2 hb2 hv]
        decide

theorem parseSchema_never_missing_required {r : Request} {fields : List GField}
    {e : String} (h : parseSchema r fields = .error e) :
    (convertToErrorResult (.err e)).code ≠ "ERR_MISSING_REQUIRED" := by
  rcases parseSchema_error_shape h with (⟨m, rfl⟩ | ⟨m, rfl⟩ | ⟨m, rfl⟩ | rfl) | ⟨m, rfl⟩
  · exact convert_never_missing_of_contains (strContains_append_left (by decide))
  · exact convert_never_missing_of_contains (strContains_append_left (by decide))
  · exact convert_never_missing_of_contains (strContains_append_left (by decide))
  · decide
  · exact convert_never_missing_of_contains (strContains_append_left_of_front (by decide))

end X

namespace X

/-- C2 amended: a required field with no supplied value and no default is
never silently skipped — for a path-parameter or query field, in any
position of its sub-schema, the parse stops with a structured error whose
message carries the `required` and `missing` markers — but the boundary
mapping surfaces it under the location code (`ERR_INVALID_PARAMS`,
`ERR_INVALID_QUERY`), never `ERR_MISSING_REQUIRED`: every `parseSchema`
error maps to a code different from `ERR_MISSING_REQUIRED`, because the
location prefixes match first. The body location differs: an empty body
with a required body field yields `request body is required` (no `missing`
marker) under `ERR_INVALID_BODY`, and a required body field absent from a
non-empty decoded body is caught by the validator pass and surfaces as
`ERR_VALIDATION_FAILED`. -/
theorem C2_missing_required_amended :
    (∀ (f : GField) (r : Request) (pre post : List GField)
        (vs : List (String × GVal)),
      f.exported = true → isRequired f = true →
      r.param (paramNameOf f) = "" →
      parseParamsL r pre = .ok vs →
      parseSchema r [.mk "Params" [] (.strc "" (pre ++ f :: post)) true] =
        .error ("params validation failed: " ++
          missingParamFieldMsg (paramNameOf f)) ∧
      strContains (missingParamFieldMsg (paramNameOf f)) "required" = true ∧
      strContains (missingParamFieldMsg (paramNameOf f)) "missing" = true ∧
      (convertToErrorResult (.err ("params validation failed: " ++
          missingParamFieldMsg (paramNameOf f)))).code = "ERR_INVALID_PARAMS") ∧
    (∀ (f : GField) (r : Request) (pre post : List GField)
        (vs : List (String × GVal)),
      f.exported = true → isRequired f = true →
      getTagValue f "default" = "" →
      r.q (queryNameOf f) = "" → r.q f.name = "" → r.q (strLower f.name) = "" →
      strContains ("query validation failed: " ++
        missingQueryFieldMsg (queryNameOf f)) "params validation failed" = false →
      parseQueryL r pre = .ok vs →
      parseSchema r [.mk "Query" [] (.strc "" (pre ++ f :: post)) true] =
        .error ("query validation failed: " ++
          missingQueryFieldMsg (queryNameOf f)) ∧
      strContains (missingQueryFieldMsg (queryNameOf f)) "required" = true ∧
      strContains (missingQueryFieldMsg (queryNameOf f)) "missing" = true ∧
      (convertToErrorResult (.err ("query validation failed: " ++
          missingQueryFieldMsg (queryNameOf f)))).code = "ERR_INVALID_QUERY") ∧
    (∀ (r : Request) (fields : List GField) (e : String),
      parseSchema r fields = .error e →
      (convertToErrorResult (.err e)).code ≠ "ERR_MISSING_REQUIRED") ∧
    (parseSchema emptyReq bodyReqSchemaFields =
        .error ("body validation failed: " ++ "request body is required") ∧
      strContains ("body validation failed: " ++ "request body is required")
        "missing" = false ∧
      (convertToErrorResult (.err ("body validation failed: " ++
          "request body is required"))).code = "ERR_INVALID_BODY") ∧
    (parseSchema reqBodyZeroTitle bodyReqSchemaFields =
        .error ("validation failed: " ++ validatorMsg "Title") ∧
      (convertToErrorResult (.err ("validation failed: " ++
          validatorMsg "Title"))).code = "ERR_VALIDATION_FAILED") := by
  refine ⟨?_, ?_, ?_, ⟨by rfl, by decide, by rfl⟩, ⟨by rfl, by rfl⟩⟩
  · intro f r pre post vs h1 h2 h3 hok
    have hfield := parseParamField_missing r h1 h2 h3
    have hl := parseParamsL_append_error pre r vs f post _ hok hfield
    have hreq : strContains (missingParamFieldMsg (paramNameOf f))
        "required" = true := by
      unfold missingParamFieldMsg
      apply strContains_append_left
      apply strContains_append_left
      apply strContains_append_left
      exact strContains_append_left_of_front (by decide)
    have hmiss : strContains (missingParamFieldMsg (paramNameOf f))
        "missing" = true := by
      unfold missingParamFieldMsg
      exact strContains_append_right (by decide)
    exact ⟨parseSchema_params_error hl, hreq, hmiss,
      code_of_contains_params (strContains_append_left_of_front (by decide))⟩
  · intro f r pre post vs h1 h2 h3 h4 h5 h6 h7 hok
    have hfield := parseQueryField_missing r h1 h2 h3 h4 h5 h6
    have hl := parseQueryL_append_error pre r vs f post _ hok hfield
    have hreq : strContains (missingQueryFieldMsg (queryNameOf f))
        "required" = true := by
      unfold missingQueryFieldMsg
      apply strContains_append_left
      apply strContains_append_left
      apply strContains_append_left
      exact strContains_append_left_of_front (by decide)
    have hmiss : strContains (missingQueryFieldMsg (queryNameOf f))
        "missing" = true := by
      unfold missingQueryFieldMsg
      exact strContains_append_right (by decide)
    exact ⟨parseSchema_query_error hl, hreq, hmiss,
      code_of_contains_query h7 (strContains_append_left_of_front (by decide))⟩
  · intro r fields e h
    exact parseSchema_never_missing_required h

/-- Witness for C2 amended: a required path parameter `ID` and a required
query field `Limit`, each absent from an empty request, produce the
missing-required errors surfaced as `ERR_INVALID_PARAMS` and
`ERR_INVALID_QUERY`, and the query error does not surface as
`ERR_MISSING_REQUIRED`. -/
theorem C2_missing_required_amended_witness :
    parseSchema emptyReq
        [.mk "Params" []
          (.strc "" [.mk "ID" [("validate", "required")] (.i 64) true]) true] =
      .error ("params validation failed: " ++ missingParamFieldMsg "id") ∧
    parseSchema emptyReq
        [.mk "Query" []
          (.strc "" [.mk "Limit" [("validate", "required")] (.i 64) true]) true] =
      .error ("query validation failed: " ++ missingQueryFieldMsg "Limit") ∧
    (convertToErrorResult (.err ("query validation failed: " ++
        missingQueryFieldMsg "Limit"))).code ≠ "ERR_MISSING_REQUIRED" := by
  refine ⟨?_, ?_, ?_⟩
  · exact (C2_missing_required_amended.1
      (.mk "ID" [("validate", "required")] (.i 64) true) emptyReq [] [] []
      (by rfl) (by rfl) (by rfl) (by rfl)).1
  · exact (C2_missing_required_amended.2.1
      (.mk "Limit" [("validate", "required")] (.i 64) true) emptyReq [] [] []
      (by rfl) (by rfl) (by rfl) (by rfl) (by rfl) (by rfl) (by decide) (by rfl)).1
  · exact C2_missing_required_amended.2.2.1 emptyReq
      [.mk "Query" []
        (.strc "" [.mk "Limit" [("validate", "required")] (.i 64) true]) true]
      ("query validation failed: " ++ missingQueryFieldMsg "Limit") (by rfl)

end X
